import Mathlib

/-!
# Verification of the chuk-puzzles-gym evaluation and scoring pipeline

Shallow embedding of the evaluation/scoring core of the repository:

* `Gym` — the CHUK-R scoring side (`src/chuk_puzzles_gym`):
  `models/evaluation.py` (`ReasoningMetrics`, `EpisodeResult` and their
  computed fields), `benchmark/scoring.py` (`score_episode`) and
  `benchmark/models.py` (`GameBenchmarkResult`, `FamilyBenchmarkResult`,
  `ChukRBenchmarkResult`).
* `Arcade` — the episode engine and harness
  (`src/puzzle_arcade_server/eval.py`): `run_episode`, `evaluate_game`,
  `evaluate_all_games`.

Python floats are modelled as exact rationals (`ℚ`); Python `round(x, 2)`
is modelled by rounding `100 * x` to the nearest integer.  Wall-clock time
is abstracted into an explicit timeout oracle (one Boolean per loop
iteration, the value of `elapsed > max_time_sec`); the three wall-clock
fields `started_at`, `ended_at`, `wall_time_ms` are outside the embedding.
-/

namespace Gym

/-- `EpisodeStatus` from `chuk_puzzles_gym/models/enums.py`:
solved / failed / timeout / abandoned. -/
inductive EpisodeStatus where
  | solved
  | failed
  | timeout
  | abandoned
deriving DecidableEq

/-- `ReasoningMetrics` (stored fields) from
`chuk_puzzles_gym/models/evaluation.py`.  Pydantic validates
`backtrack_count ≥ 0`, so it is a `ℕ`; the entries of
`solver_distance_trace` carry no validation constraint, so they are `ℤ`.
Fields not used by any claim (`error_streak_max`, `error_streaks`,
`total_actions`, `optimal_path_length`) are kept for completeness. -/
structure ReasoningMetrics where
  backtrack_count : ℕ := 0
  solver_distance_trace : List ℤ := []
  error_streak_max : ℕ := 0
  error_streaks : List ℕ := []
  total_actions : ℕ := 0
  optimal_path_length : Option ℕ := none
deriving DecidableEq

/-- Computed field `ReasoningMetrics.backtrack_rate`:
`backtrack_count / len(solver_distance_trace)`, `0.0` on an empty trace. -/
def ReasoningMetrics.backtrack_rate (m : ReasoningMetrics) : ℚ :=
  let valid_moves := m.solver_distance_trace.length
  if valid_moves = 0 then 0
  else (m.backtrack_count : ℚ) / (valid_moves : ℚ)

/-- Computed field `ReasoningMetrics.progress_velocity`:
`(trace[0] - trace[-1]) / (len(trace) - 1)`, `0.0` when `len(trace) < 2`
(the inner `steps == 0` guard of the Python source is kept verbatim). -/
def ReasoningMetrics.progress_velocity (m : ReasoningMetrics) : ℚ :=
  let trace := m.solver_distance_trace
  if trace.length < 2 then 0
  else
    let total_progress : ℤ := trace.headI - trace.getLastI
    let steps : ℕ := trace.length - 1
    if steps = 0 then 0 else (total_progress : ℚ) / (steps : ℚ)

/-- Computed field `ReasoningMetrics.progress_steadiness`:
fraction of adjacent trace pairs that strictly decrease; `1.0` when
`len(trace) < 2`. -/
def ReasoningMetrics.progress_steadiness (m : ReasoningMetrics) : ℚ :=
  let trace := m.solver_distance_trace
  if trace.length < 2 then 1
  else
    let monotonic_steps := ((trace.zip trace.tail).countP fun p => p.2 < p.1)
    (monotonic_steps : ℚ) / ((trace.length - 1 : ℕ) : ℚ)

/-- `EpisodeResult` (stored fields relevant to scoring) from
`chuk_puzzles_gym/models/evaluation.py`.  Pydantic validates
`steps_taken ≥ 0`, `invalid_actions ≥ 0`, `hints_used ≥ 0` (hence `ℕ`)
and `optimal_steps ≥ 1` when present (kept as a side condition in the
theorems that need it). -/
structure EpisodeResult where
  status : EpisodeStatus
  steps_taken : ℕ
  invalid_actions : ℕ
  hints_used : ℕ
  optimal_steps : Option ℕ := none
  reasoning_metrics : Option ReasoningMetrics := none
deriving DecidableEq

/-- Computed field `EpisodeResult.success`: `status == SOLVED`. -/
def EpisodeResult.success (e : EpisodeResult) : Prop :=
  e.status = EpisodeStatus.solved

instance (e : EpisodeResult) : Decidable e.success := by
  unfold EpisodeResult.success; infer_instance

/-- Computed field `EpisodeResult.efficiency_score`:
`min(1, optimal_steps / steps_taken)` when solved with known
`optimal_steps` and `steps_taken > 0`, else `0.0`. -/
def EpisodeResult.efficiency_score (e : EpisodeResult) : ℚ :=
  match e.optimal_steps with
  | none => 0
  | some opt =>
    if e.status = EpisodeStatus.solved ∧ e.steps_taken ≠ 0 then
      min 1 ((opt : ℚ) / (e.steps_taken : ℚ))
    else 0

/-- Computed field `EpisodeResult.error_rate`:
`invalid_actions / (steps_taken + invalid_actions)`, `0.0` when the total
is zero. -/
def EpisodeResult.error_rate (e : EpisodeResult) : ℚ :=
  let total := e.steps_taken + e.invalid_actions
  if total = 0 then 0 else (e.invalid_actions : ℚ) / (total : ℚ)

/-- Computed field `EpisodeResult.hint_dependency`:
`min(1, hints_used / steps_taken)`, `0.0` when `steps_taken = 0`. -/
def EpisodeResult.hint_dependency (e : EpisodeResult) : ℚ :=
  if e.steps_taken = 0 then 0
  else min 1 ((e.hints_used : ℚ) / (e.steps_taken : ℚ))

/-! ### `benchmark/scoring.py` -/

/-- Component weight `W_EFFICIENCY = 0.40`. -/
def W_EFFICIENCY : ℚ := 40 / 100

/-- Component weight `W_ERROR = 0.15`. -/
def W_ERROR : ℚ := 15 / 100

/-- Component weight `W_BACKTRACK = 0.15`. -/
def W_BACKTRACK : ℚ := 15 / 100

/-- Component weight `W_STEADINESS = 0.15`. -/
def W_STEADINESS : ℚ := 15 / 100

/-- Component weight `W_HINT = 0.15`. -/
def W_HINT : ℚ := 15 / 100

/-- Python `round(x, 2)` modelled over exact rationals: round `100 * x`
to the nearest integer and divide back. -/
def round2 (x : ℚ) : ℚ := ((round (x * 100) : ℤ) : ℚ) / 100

/-- The efficiency component of `score_episode` in
`benchmark/scoring.py`: the episode's `efficiency_score` when positive,
otherwise the fallback `max(0, 1 - min(1, (steps_taken - 1) / 100))`
used when `optimal_steps` is unknown. -/
def efficiencyComponent (e : EpisodeResult) : ℚ :=
  if e.efficiency_score > 0 then e.efficiency_score
  else max 0 (1 - min 1 (((e.steps_taken : ℚ) - 1) / 100))

/-- `score_episode` from `benchmark/scoring.py`: `0.0` for unsolved
episodes; otherwise the weighted component sum, scaled to `[0, 100]`,
clamped and rounded to two decimals. -/
def score_episode (e : EpisodeResult) : ℚ :=
  if ¬ e.success then 0
  else
    let eff := efficiencyComponent e
    let err := 1 - e.error_rate
    let bt := match e.reasoning_metrics with
      | some rm => 1 - min 1 rm.backtrack_rate
      | none => 1
    let stead := match e.reasoning_metrics with
      | some rm => rm.progress_steadiness
      | none => 1
    let hint := 1 - e.hint_dependency
    let raw := W_EFFICIENCY * eff + W_ERROR * err + W_BACKTRACK * bt
      + W_STEADINESS * stead + W_HINT * hint
    round2 (max 0 (min 100 (raw * 100)))

/-! ### `benchmark/models.py` -/

/-- Mean of a list of rationals, `0` on the empty list: the shape shared
by every aggregation step of the scoring chain. -/
def meanOrZero (l : List ℚ) : ℚ :=
  if l = [] then 0 else l.sum / (l.length : ℚ)

/-- `GameBenchmarkResult` (stored fields) from `benchmark/models.py`. -/
structure GameBenchmarkResult where
  game : String
  family : String
  difficulty : String
  episodes_evaluated : ℕ
  episodes_solved : ℕ
  episode_scores : List ℚ
deriving DecidableEq

/-- Computed field `GameBenchmarkResult.score`: mean episode score,
`0.0` when `episode_scores` is empty. -/
def GameBenchmarkResult.score (g : GameBenchmarkResult) : ℚ :=
  if g.episode_scores = [] then 0
  else g.episode_scores.sum / (g.episode_scores.length : ℚ)

/-- `FamilyBenchmarkResult` (stored fields) from `benchmark/models.py`. -/
structure FamilyBenchmarkResult where
  family : String
  games : List GameBenchmarkResult
  total_games : ℕ
deriving DecidableEq

/-- Computed field `FamilyBenchmarkResult.score`: mean score of the
games with `episodes_evaluated > 0`, `0.0` when there are none. -/
def FamilyBenchmarkResult.score (f : FamilyBenchmarkResult) : ℚ :=
  let scored := (f.games.filter fun g => 0 < g.episodes_evaluated).map
    GameBenchmarkResult.score
  if scored = [] then 0 else scored.sum / (scored.length : ℚ)

/-- Computed field `FamilyBenchmarkResult.evaluated_count`: number of
games with `episodes_evaluated > 0`. -/
def FamilyBenchmarkResult.evaluated_count (f : FamilyBenchmarkResult) : ℕ :=
  f.games.countP fun g => 0 < g.episodes_evaluated

/-- `ChukRBenchmarkResult` (stored fields relevant to scoring) from
`benchmark/models.py`. -/
structure ChukRBenchmarkResult where
  difficulty : String
  episodes_per_game : ℕ
  families : List FamilyBenchmarkResult
  games : List GameBenchmarkResult
deriving DecidableEq

/-- Computed field `ChukRBenchmarkResult.chuk_r`: mean score of the
families with `evaluated_count > 0`, `0.0` when there are none. -/
def ChukRBenchmarkResult.chuk_r (b : ChukRBenchmarkResult) : ℚ :=
  let family_scores := (b.families.filter fun f => 0 < f.evaluated_count).map
    FamilyBenchmarkResult.score
  if family_scores = [] then 0
  else family_scores.sum / (family_scores.length : ℚ)

end Gym

/-- The reasoning metrics of the backtrack-penalty scenario: 5
backtracks over a 10-entry strictly decreasing distance trace
(`backtrack_rate = 0.5`, `progress_steadiness = 1`). -/
def rm925 : Gym.ReasoningMetrics where
  backtrack_count := 5
  solver_distance_trace := [10, 9, 8, 7, 6, 5, 4, 3, 2, 1]
  total_actions := 10
  optimal_path_length := some 10

/-- The synthetic episode of the backtrack-penalty scenario: solved in
10 optimal steps with no errors and no hints, with metrics `rm925`
(`backtrack_rate = 0.5`, all other components perfect). -/
def ex925 : Gym.EpisodeResult where
  status := Gym.EpisodeStatus.solved
  steps_taken := 10
  invalid_actions := 0
  hints_used := 0
  optimal_steps := some 10
  reasoning_metrics := some rm925

namespace Arcade

/-- Outcome of applying a hint (`_apply_hint` followed by the
`try`/`except` in `run_episode`, `puzzle_arcade_server/eval.py`).  The
dispatch of `_apply_hint` and the game's `validate_move` are the game's
own behaviour, so they are folded into the game model:
* `valid s` — `validate_move` returned `success = True`, new state `s`;
* `invalid s` — `validate_move` returned `success = False`, new state `s`;
* `caughtError s` — a `TypeError`/`ValueError`/`AttributeError`/
  `IndexError` was raised (counted as an invalid move by the engine);
* `uncaughtError msg` — any other exception (propagates out). -/
inductive ApplyOutcome (σ : Type) where
  | valid (s : σ)
  | invalid (s : σ)
  | caughtError (s : σ)
  | uncaughtError (msg : String)
deriving DecidableEq

/-- A deterministic puzzle game as seen by `run_episode`: the behaviour
of one `(game_class, difficulty, seed)` instantiation.  `generate` is the
outcome of `generate_puzzle` (an exception is an `error`); `isComplete`,
`getHint` and `applyHint` are the game's responses along the episode,
as pure functions of an abstract game state `σ` (hint payloads have an
abstract type `η`). -/
structure Game (σ η : Type) where
  name : String
  generate : Except String σ
  isComplete : σ → Bool
  getHint : σ → Option η
  applyHint : σ → η → ApplyOutcome σ

/-- `EpisodeResult` (dataclass) from `puzzle_arcade_server/eval.py`,
minus the three wall-clock fields `started_at`, `ended_at`,
`wall_time_ms`, which are outside the embedding. -/
structure EpisodeResult where
  game : String
  difficulty : String
  seed : ℤ
  status : String
  moves_made : ℕ
  invalid_moves : ℕ
  hints_used : ℕ
deriving DecidableEq

/-- The mutable loop variables of `run_episode`. -/
structure LoopState (σ : Type) where
  s : σ
  moves : ℕ
  invalid : ℕ
  hints : ℕ

/-- How the `while` loop of `run_episode` ended: normally (with the
final loop variables and the `status` string at that point), by raising
an uncaught exception, or — an artefact of the fuel encoding only — by
running out of fuel (proved unreachable for the fuel `run_episode`
supplies). -/
inductive LoopOutcome (σ : Type) where
  | finished (st : LoopState σ) (status : String)
  | raised (msg : String)
  | fuelOut

/-- The `while` loop of `run_episode`, one constructor case per Python
branch.  `t k` is the wall-clock oracle: the value of
`elapsed > max_time_sec` at the top of iteration `k`.  The loop guard is
`moves_made < max_moves and not game.is_complete()`; inside, a hint is
fetched (`None` breaks), counted, and applied; a successful application
increments `moves_made`, a failed or caught-exception application
increments `invalid_moves` and breaks once `invalid_moves > 50`;
`use_hints = False` breaks immediately. -/
def runLoop {σ η : Type} (g : Game σ η) (useHints : Bool) (maxMoves : ℕ)
    (t : ℕ → Bool) : ℕ → ℕ → LoopState σ → LoopOutcome σ
  | 0, _, _ => .fuelOut
  | fuel + 1, k, st =>
    if st.moves < maxMoves ∧ g.isComplete st.s = false then
      if t k then .finished st "timeout"
      else if useHints then
        match g.getHint st.s with
        | none => .finished st "failed"
        | some h =>
          match g.applyHint st.s h with
          | .valid s' =>
            runLoop g useHints maxMoves t fuel (k + 1)
              ⟨s', st.moves + 1, st.invalid, st.hints + 1⟩
          | .invalid s' =>
            if st.invalid + 1 > 50 then
              .finished ⟨s', st.moves, st.invalid + 1, st.hints + 1⟩ "failed"
            else
              runLoop g useHints maxMoves t fuel (k + 1)
                ⟨s', st.moves, st.invalid + 1, st.hints + 1⟩
          | .caughtError s' =>
            if st.invalid + 1 > 50 then
              .finished ⟨s', st.moves, st.invalid + 1, st.hints + 1⟩ "failed"
            else
              runLoop g useHints maxMoves t fuel (k + 1)
                ⟨s', st.moves, st.invalid + 1, st.hints + 1⟩
          | .uncaughtError msg => .raised msg
      else .finished st "failed"
    else .finished st "failed"

/-- Fuel bound for `runLoop`: each iteration increments `moves` or
`invalid` (or breaks), `moves` is bounded by `maxMoves` and `invalid` by
`51`, so `maxMoves + 52` iterations always suffice. -/
def loopFuel (maxMoves : ℕ) : ℕ := maxMoves + 52

/-- `run_episode` from `puzzle_arcade_server/eval.py`.  A failing
`generate_puzzle` or an uncaught exception during hint application
propagates as `Except.error`; otherwise the loop runs and the final
status is overridden to `"solved"` when the game reports completion. -/
def run_episode {σ η : Type} (g : Game σ η) (difficulty : String) (seed : ℤ)
    (useHints : Bool) (maxMoves : ℕ) (t : ℕ → Bool) :
    Except String EpisodeResult :=
  match g.generate with
  | .error e => .error e
  | .ok s0 =>
    match runLoop g useHints maxMoves t (loopFuel maxMoves) 0 ⟨s0, 0, 0, 0⟩ with
    | .raised msg => .error msg
    | .fuelOut => .error "fuel exhausted"
    | .finished st status =>
      .ok { game := g.name
            difficulty := difficulty
            seed := seed
            status := if g.isComplete st.s then "solved" else status
            moves_made := st.moves
            invalid_moves := st.invalid
            hints_used := st.hints }

/-- `evaluate_game` from `puzzle_arcade_server/eval.py`, for an explicit
seed list: episodes run in seed order and an exception raised by any
episode propagates (aborting the remaining episodes of this game). -/
def evaluate_game {σ η : Type} (g : Game σ η) (difficulty : String)
    (seeds : List ℤ) (useHints : Bool) (maxMoves : ℕ) (t : ℕ → Bool) :
    Except String (List EpisodeResult) :=
  match seeds with
  | [] => .ok []
  | seed :: rest =>
    match run_episode g difficulty seed useHints maxMoves t with
    | .error e => .error e
    | .ok r =>
      match evaluate_game g difficulty rest useHints maxMoves t with
      | .error e => .error e
      | .ok rs => .ok (r :: rs)

/-- `evaluate_game` with `seeds=None`: the seed list is built by
`episodes` successive calls to `random.randint(1, 2**31 - 1)`, modelled
by the draw oracle `rng` (the `i`-th draw is `rng i`). -/
def evaluate_game_auto {σ η : Type} (g : Game σ η) (difficulty : String)
    (episodes : ℕ) (rng : ℕ → ℤ) (useHints : Bool) (maxMoves : ℕ)
    (t : ℕ → Bool) : Except String (List EpisodeResult) :=
  evaluate_game g difficulty ((List.range episodes).map rng) useHints maxMoves t

/-- `evaluate_all_games` from `puzzle_arcade_server/eval.py`: each game
is evaluated inside `try`/`except Exception`; a game whose evaluation
raises is silently dropped from the reports dict and the remaining games
continue.  The reports dict is modelled as an association list in the
iteration order of the games list. -/
def evaluate_all_games {σ η : Type} (games : List (Game σ η))
    (difficulty : String) (seeds : List ℤ) (useHints : Bool) (maxMoves : ℕ)
    (t : ℕ → Bool) : List (String × List EpisodeResult) :=
  match games with
  | [] => []
  | g :: rest =>
    match evaluate_game g difficulty seeds useHints maxMoves t with
    | .ok reps =>
      (g.name, reps) :: evaluate_all_games rest difficulty seeds useHints maxMoves t
    | .error _ => evaluate_all_games rest difficulty seeds useHints maxMoves t

/-- The timeout oracle of a run whose every iteration stays under the
30-second cap. -/
def noTimeout : ℕ → Bool := fun _ => false

/-- The timeout oracle of a run that is already past the 30-second cap
at its first iteration. -/
def immediateTimeout : ℕ → Bool := fun _ => true

/-- A deterministic game that is solved after exactly two valid moves:
the state counts the moves made, every hint application succeeds. -/
def gTwoStep : Game ℕ Unit where
  name := "twostep"
  generate := .ok 0
  isComplete := fun s => decide (2 ≤ s)
  getHint := fun _ => some ()
  applyHint := fun s _ => .valid (s + 1)

/-- A deterministic game that is never complete and rejects every hint
application (`validate_move` always returns `success = False`). -/
def gAllInvalid : Game Unit Unit where
  name := "allinvalid"
  generate := .ok ()
  isComplete := fun _ => false
  getHint := fun _ => some ()
  applyHint := fun _ _ => .invalid ()

/-- A game whose `generate_puzzle` raises (the game's constraint solver
signals a generation failure). -/
def gBadGen : Game ℕ Unit where
  name := "badgen"
  generate := .error "generation failed"
  isComplete := fun _ => false
  getHint := fun _ => none
  applyHint := fun s _ => .invalid s

/-- A second always-under-budget timeout oracle (a distinct run of the
same episode, also staying under the 30-second cap). -/
def noTimeoutB : ℕ → Bool := fun _ => false

/-- A draw oracle for `random.randint(1, 2**31 - 1)` that happens to
return `7` on every call. -/
def rngConst7 : ℕ → ℤ := fun _ => 7

/-! ### Loop invariants of `run_episode` -/

/-- With fuel exceeding `(maxMoves - moves) + (51 - invalid)`, the loop
never runs out of fuel: every iteration that recurses increments `moves`
(bounded by the guard `moves < maxMoves`) or `invalid` (bounded by the
`> 50` break). -/
theorem runLoop_ne_fuelOut {σ η : Type} (g : Game σ η) (uh : Bool) (mm : ℕ)
    (t : ℕ → Bool) :
    ∀ (fuel k : ℕ) (st : LoopState σ),
      mm - st.moves + (51 - st.invalid) < fuel →
      runLoop g uh mm t fuel k st ≠ LoopOutcome.fuelOut := by
  intro fuel
  induction fuel with
  | zero => intro k st hb; omega
  | succ fuel ih =>
    intro k st hb
    rw [runLoop]
    split
    · rename_i hguard
      split
      · simp
      · split
        · split
          · simp
          · split
            · exact ih _ _ (by simp only; omega)
            · split
              · simp
              · exact ih _ _ (by simp only; omega)
            · split
              · simp
              · exact ih _ _ (by simp only; omega)
            · simp
        · simp
    · simp

/-- Counter bounds preserved by the loop: starting from
`invalid ≤ 50`, a normally finished loop ends with
`moves ≤ max maxMoves moves₀` and `invalid ≤ 51`. -/
theorem runLoop_bounds {σ η : Type} (g : Game σ η) (uh : Bool) (mm : ℕ)
    (t : ℕ → Bool) :
    ∀ (fuel k : ℕ) (st : LoopState σ) (st' : LoopState σ) (status : String),
      st.moves ≤ mm → st.invalid ≤ 50 →
      runLoop g uh mm t fuel k st = LoopOutcome.finished st' status →
      st'.moves ≤ mm ∧ st'.invalid ≤ 51 := by
  intro fuel
  induction fuel with
  | zero =>
    intro k st st' status _ _ h
    rw [runLoop] at h
    exact LoopOutcome.noConfusion h
  | succ fuel ih =>
    intro k st st' status hm hi h
    rw [runLoop] at h
    split at h
    · rename_i hguard
      obtain ⟨hlt, -⟩ := hguard
      split at h
      · injection h with h1 h2; subst h1; exact ⟨hm, by omega⟩
      · split at h
        · split at h
          · injection h with h1 h2; subst h1; exact ⟨hm, by omega⟩
          · split at h
            · rename_i s' _
              exact ih (k + 1) ⟨s', st.moves + 1, st.invalid, st.hints + 1⟩
                st' status (by show st.moves + 1 ≤ mm; omega) hi h
            · split at h
              · injection h with h1 h2; subst h1
                exact ⟨hm, by show st.invalid + 1 ≤ 51; omega⟩
              · rename_i s' _ hnot
                exact ih (k + 1) ⟨s', st.moves, st.invalid + 1, st.hints + 1⟩
                  st' status hm (by show st.invalid + 1 ≤ 50; omega) h
            · split at h
              · injection h with h1 h2; subst h1
                exact ⟨hm, by show st.invalid + 1 ≤ 51; omega⟩
              · rename_i s' _ hnot
                exact ih (k + 1) ⟨s', st.moves, st.invalid + 1, st.hints + 1⟩
                  st' status hm (by show st.invalid + 1 ≤ 50; omega) h
            · exact LoopOutcome.noConfusion h
        · injection h with h1 h2; subst h1; exact ⟨hm, by omega⟩
    · injection h with h1 h2; subst h1; exact ⟨hm, by omega⟩

/-- Counter accounting of the loop: each iteration that consumes a hint
increments `hints_used` by one and exactly one of `moves_made`
/`invalid_moves` by one, so the deltas agree. -/
theorem runLoop_counts {σ η : Type} (g : Game σ η) (uh : Bool) (mm : ℕ)
    (t : ℕ → Bool) :
    ∀ (fuel k : ℕ) (st st' : LoopState σ) (status : String),
      runLoop g uh mm t fuel k st = LoopOutcome.finished st' status →
      st'.hints + st.moves + st.invalid = st.hints + st'.moves + st'.invalid := by
  intro fuel
  induction fuel with
  | zero =>
    intro k st st' status h
    rw [runLoop] at h
    exact LoopOutcome.noConfusion h
  | succ fuel ih =>
    intro k st st' status h
    rw [runLoop] at h
    split at h
    · split at h
      · injection h with h1 h2; subst h1; rfl
      · split at h
        · split at h
          · injection h with h1 h2; subst h1; rfl
          · split at h
            · rename_i s' _
              have h2 : st'.hints + (st.moves + 1) + st.invalid
                  = (st.hints + 1) + st'.moves + st'.invalid :=
                ih (k + 1) ⟨s', st.moves + 1, st.invalid, st.hints + 1⟩ st' status h
              omega
            · split at h
              · injection h with h1 h2; subst h1
                show st.hints + 1 + st.moves + st.invalid
                  = st.hints + st.moves + (st.invalid + 1)
                omega
              · rename_i s' _ _
                have h2 : st'.hints + st.moves + (st.invalid + 1)
                    = (st.hints + 1) + st'.moves + st'.invalid :=
                  ih (k + 1) ⟨s', st.moves, st.invalid + 1, st.hints + 1⟩ st' status h
                omega
            · split at h
              · injection h with h1 h2; subst h1
                show st.hints + 1 + st.moves + st.invalid
                  = st.hints + st.moves + (st.invalid + 1)
                omega
              · rename_i s' _ _
                have h2 : st'.hints + st.moves + (st.invalid + 1)
                    = (st.hints + 1) + st'.moves + st'.invalid :=
                  ih (k + 1) ⟨s', st.moves, st.invalid + 1, st.hints + 1⟩ st' status h
                omega
            · exact LoopOutcome.noConfusion h
        · injection h with h1 h2; subst h1; rfl
    · injection h with h1 h2; subst h1; rfl

/-- With `use_hints = False` the loop body always breaks on its first
iteration, leaving the loop variables untouched. -/
theorem runLoop_false {σ η : Type} (g : Game σ η) (mm : ℕ) (t : ℕ → Bool) :
    ∀ (fuel k : ℕ) (st st' : LoopState σ) (status : String),
      runLoop g false mm t fuel k st = LoopOutcome.finished st' status →
      st' = st := by
  intro fuel
  induction fuel with
  | zero =>
    intro k st st' status h
    rw [runLoop] at h
    exact LoopOutcome.noConfusion h
  | succ fuel _ =>
    intro k st st' status h
    rw [runLoop] at h
    split at h
    · split at h
      · injection h with h1 h2; exact h1.symm
      · split at h
        · simp at *
        · injection h with h1 h2; exact h1.symm
    · injection h with h1 h2; exact h1.symm

/-- The loop consults wall-clock time only through the timeout test: two
executions whose timeout tests all come back negative take identical
paths, whatever their iteration indices. -/
theorem runLoop_oracle_eq {σ η : Type} (g : Game σ η) (uh : Bool) (mm : ℕ)
    (t1 t2 : ℕ → Bool) (ht1 : ∀ n, t1 n = false) (ht2 : ∀ n, t2 n = false) :
    ∀ (fuel k1 k2 : ℕ) (st : LoopState σ),
      runLoop g uh mm t1 fuel k1 st = runLoop g uh mm t2 fuel k2 st := by
  intro fuel
  induction fuel with
  | zero => intro k1 k2 st; rfl
  | succ fuel ih =>
    intro k1 k2 st
    rw [runLoop, runLoop, ht1 k1, ht2 k2]
    simp only [Bool.false_eq_true, if_false]
    split
    · split
      · split
        · rfl
        · split
          · exact ih _ _ _
          · split
            · rfl
            · exact ih _ _ _
          · split
            · rfl
            · exact ih _ _ _
          · rfl
      · rfl
    · rfl

end Arcade

/-! ## Claim theorems -/

/-- `max 0 (1 - min 1 x)` (the fallback efficiency as written in the
code) coincides with `max 0 (1 - x)` (as written in the spec). -/
theorem max_zero_one_sub_min (x : ℚ) : max 0 (1 - min 1 x) = max 0 (1 - x) := by
  rcases le_total x 1 with h | h
  · rw [min_eq_right h]
  · rw [min_eq_left h]
    have h1 : (1 : ℚ) - x ≤ 0 := by linarith
    rw [sub_self, max_eq_left le_rfl, max_eq_left h1]

/-- The solved branch of `score_episode`, written as the spec writes it:
`round(clamp(100 · Σ weight·component, 0, 100), 2)`. -/
theorem score_episode_solved_formula (e : Gym.EpisodeResult)
    (rm : Gym.ReasoningMetrics) (hrm : e.reasoning_metrics = some rm)
    (hs : e.status = Gym.EpisodeStatus.solved) :
    Gym.score_episode e = Gym.round2 (max 0 (min 100 (100 *
      ((40 / 100 : ℚ) * Gym.efficiencyComponent e
        + (15 / 100) * (1 - e.error_rate)
        + (15 / 100) * (1 - min 1 rm.backtrack_rate)
        + (15 / 100) * rm.progress_steadiness
        + (15 / 100) * (1 - e.hint_dependency))))) := by
  have hs2 : e.success := hs
  rw [Gym.score_episode, if_neg (not_not_intro hs2)]
  simp only [hrm]
  have harith : (Gym.W_EFFICIENCY * Gym.efficiencyComponent e
      + Gym.W_ERROR * (1 - e.error_rate)
      + Gym.W_BACKTRACK * (1 - min 1 rm.backtrack_rate)
      + Gym.W_STEADINESS * rm.progress_steadiness
      + Gym.W_HINT * (1 - e.hint_dependency)) * 100 =
      100 * ((40 / 100 : ℚ) * Gym.efficiencyComponent e
        + (15 / 100) * (1 - e.error_rate)
        + (15 / 100) * (1 - min 1 rm.backtrack_rate)
        + (15 / 100) * rm.progress_steadiness
        + (15 / 100) * (1 - e.hint_dependency)) := by
    rw [Gym.W_EFFICIENCY, Gym.W_ERROR, Gym.W_BACKTRACK, Gym.W_STEADINESS,
      Gym.W_HINT]
    ring
  rw [harith]

/-- C1: `score_episode` returns exactly `0` for every unsolved episode;
for a solved episode (with reasoning metrics present) it returns the
weighted component sum `0.40·efficiency + 0.15·(1 − error_rate) +
0.15·(1 − min(1, backtrack_rate)) + 0.15·progress_steadiness +
0.15·(1 − hint_dependency)`, scaled by 100, clamped to `[0, 100]` and
rounded to two decimals; and the synthetic solved episode with
`backtrack_rate = 0.5` and all other components perfect scores exactly
`92.5`. -/
theorem C1_score_episode (e : Gym.EpisodeResult) :
    (e.status ≠ Gym.EpisodeStatus.solved → Gym.score_episode e = 0) ∧
    (∀ rm : Gym.ReasoningMetrics, e.reasoning_metrics = some rm →
      e.status = Gym.EpisodeStatus.solved →
      Gym.score_episode e = Gym.round2 (max 0 (min 100 (100 *
        ((40 / 100 : ℚ) * Gym.efficiencyComponent e
          + (15 / 100) * (1 - e.error_rate)
          + (15 / 100) * (1 - min 1 rm.backtrack_rate)
          + (15 / 100) * rm.progress_steadiness
          + (15 / 100) * (1 - e.hint_dependency)))))) ∧
    Gym.score_episode ex925 = 185 / 2 := by
  refine ⟨?_, ?_, ?_⟩
  · intro hns
    rw [Gym.score_episode, if_pos]
    exact fun hs => hns hs
  · intro rm hrm hs
    exact score_episode_solved_formula e rm hrm hs
  · have h1 : Gym.efficiencyComponent ex925 = 1 := by
      norm_num [Gym.efficiencyComponent, Gym.EpisodeResult.efficiency_score,
        ex925]
    have h2 : Gym.EpisodeResult.error_rate ex925 = 0 := by
      norm_num [Gym.EpisodeResult.error_rate, ex925]
    have h3 : Gym.ReasoningMetrics.backtrack_rate rm925 = 1 / 2 := by
      norm_num [Gym.ReasoningMetrics.backtrack_rate, rm925]
    have h4 : Gym.ReasoningMetrics.progress_steadiness rm925 = 1 := by
      have hc : List.countP (fun (p : ℤ × ℤ) => decide (p.2 < p.1))
          (List.zip ([10, 9, 8, 7, 6, 5, 4, 3, 2, 1] : List ℤ)
            (List.tail [10, 9, 8, 7, 6, 5, 4, 3, 2, 1])) = 9 := by decide
      rw [Gym.ReasoningMetrics.progress_steadiness]
      simp only [rm925]
      rw [hc]
      norm_num
    have h5 : Gym.EpisodeResult.hint_dependency ex925 = 0 := by
      norm_num [Gym.EpisodeResult.hint_dependency, ex925]
    rw [score_episode_solved_formula ex925 rm925 rfl rfl, h1, h2, h3, h4, h5]
    norm_num [Gym.round2, min_def, max_def]

/-- C1 witness: the unsolved and solved branches of `C1_score_episode`
evaluated at concrete episodes. -/
theorem C1_witness :
    Gym.score_episode ⟨Gym.EpisodeStatus.failed, 3, 1, 0, none, none⟩ = 0 ∧
    Gym.score_episode ex925 = Gym.round2 (max 0 (min 100 (100 *
      ((40 / 100 : ℚ) * Gym.efficiencyComponent ex925
        + (15 / 100) * (1 - Gym.EpisodeResult.error_rate ex925)
        + (15 / 100) * (1 - min 1 (Gym.ReasoningMetrics.backtrack_rate rm925))
        + (15 / 100) * Gym.ReasoningMetrics.progress_steadiness rm925
        + (15 / 100) * (1 - Gym.EpisodeResult.hint_dependency ex925))))) :=
  ⟨(C1_score_episode ⟨Gym.EpisodeStatus.failed, 3, 1, 0, none, none⟩).1
      (by decide),
    (C1_score_episode ex925).2.1 rm925 rfl rfl⟩

/-- C2: the scoring chain composes: the top-line `chuk_r` is the mean of
the family scores over families with at least one evaluated game, each
family score is the mean of the scores of its games with at least one
evaluated episode, and each game score is the mean of its episode
scores (each mean being `0` on an empty list). -/
theorem C2_scoring_composition (b : Gym.ChukRBenchmarkResult) :
    b.chuk_r = Gym.meanOrZero
      ((b.families.filter fun f => 0 < f.evaluated_count).map fun f =>
        Gym.meanOrZero ((f.games.filter fun g => 0 < g.episodes_evaluated).map
          Gym.GameBenchmarkResult.score)) ∧
    (∀ f : Gym.FamilyBenchmarkResult,
      f.score = Gym.meanOrZero
        ((f.games.filter fun g => 0 < g.episodes_evaluated).map
          Gym.GameBenchmarkResult.score)) ∧
    (∀ g : Gym.GameBenchmarkResult,
      g.score = Gym.meanOrZero g.episode_scores) := by
  refine ⟨?_, fun f => rfl, fun g => rfl⟩
  rfl

/-- C7 counterexample: `progress_velocity` of a `ReasoningMetrics`
whose trace rises from `0` to `1` is `-1`, which is negative — the
claimed range `[0, ∞)` is violated. -/
theorem C7_counterexample :
    Gym.ReasoningMetrics.progress_velocity ⟨0, [0, 1], 0, [], 0, none⟩ = -1 ∧
    ¬ 0 ≤ Gym.ReasoningMetrics.progress_velocity ⟨0, [0, 1], 0, [], 0, none⟩ := by
  have h : Gym.ReasoningMetrics.progress_velocity ⟨0, [0, 1], 0, [], 0, none⟩
      = -1 := by
    rw [Gym.ReasoningMetrics.progress_velocity]
    norm_num [List.headI, List.getLastI]
  exact ⟨h, by rw [h]; norm_num⟩

/-- C7 (amended): `progress_velocity` equals
`(trace[0] − trace[last]) / (|trace| − 1)` when the trace has at least
two entries and `0` otherwise; it is nonnegative whenever the trace ends
no higher than it starts (in particular on monotonically non-increasing
traces), but can be negative on a rising trace. -/
theorem C7_progress_velocity (m : Gym.ReasoningMetrics) :
    (2 ≤ m.solver_distance_trace.length →
      m.progress_velocity = ((m.solver_distance_trace.headI
          - m.solver_distance_trace.getLastI : ℤ) : ℚ)
        / ((m.solver_distance_trace.length - 1 : ℕ) : ℚ)) ∧
    (m.solver_distance_trace.length < 2 → m.progress_velocity = 0) ∧
    (m.solver_distance_trace.getLastI ≤ m.solver_distance_trace.headI →
      0 ≤ m.progress_velocity) := by
  refine ⟨?_, ?_, ?_⟩
  · intro h2
    rw [Gym.ReasoningMetrics.progress_velocity]
    rw [if_neg (by omega), if_neg (by omega)]
  · intro h2
    rw [Gym.ReasoningMetrics.progress_velocity, if_pos h2]
  · intro hle
    rw [Gym.ReasoningMetrics.progress_velocity]
    by_cases h2 : m.solver_distance_trace.length < 2
    · rw [if_pos h2]
    · rw [if_neg h2]
      by_cases h0 : m.solver_distance_trace.length - 1 = 0
      · rw [if_pos h0]
      · rw [if_neg h0]
        apply div_nonneg
        · exact_mod_cast sub_nonneg.mpr hle
        · exact Nat.cast_nonneg _

/-- C7 witness: the formula and the nonnegativity branch of
`C7_progress_velocity` at the two-entry decreasing trace `[5, 3]`. -/
theorem C7_witness :
    (Gym.ReasoningMetrics.progress_velocity ⟨0, [5, 3], 0, [], 0, none⟩
      = ((([5, 3] : List ℤ).headI - ([5, 3] : List ℤ).getLastI : ℤ) : ℚ)
        / ((([5, 3] : List ℤ).length - 1 : ℕ) : ℚ)) ∧
    0 ≤ Gym.ReasoningMetrics.progress_velocity ⟨0, [5, 3], 0, [], 0, none⟩ :=
  ⟨(C7_progress_velocity ⟨0, [5, 3], 0, [], 0, none⟩).1 (by decide),
    (C7_progress_velocity ⟨0, [5, 3], 0, [], 0, none⟩).2.2 (by decide)⟩

/-- C8 counterexample: a `ReasoningMetrics` with `backtrack_count = 2`
and a one-entry trace has `backtrack_rate = 2`, outside the claimed
interval `[0, 1]` (nothing ties `backtrack_count` to the trace length in
the model; the scorer clamps with `min(1, backtrack_rate)` precisely
because of this). -/
theorem C8_counterexample :
    Gym.ReasoningMetrics.backtrack_rate ⟨2, [5], 0, [], 0, none⟩ = 2 ∧
    ¬ Gym.ReasoningMetrics.backtrack_rate ⟨2, [5], 0, [], 0, none⟩ ≤ 1 := by
  have h : Gym.ReasoningMetrics.backtrack_rate ⟨2, [5], 0, [], 0, none⟩ = 2 := by
    rw [Gym.ReasoningMetrics.backtrack_rate]
    norm_num
  exact ⟨h, by rw [h]; norm_num⟩

/-- C8 (amended): `backtrack_rate` equals
`backtrack_count / |solver_distance_trace|` on a non-empty trace and `0`
on an empty one; it is always nonnegative, and it is at most `1`
whenever `backtrack_count ≤ |solver_distance_trace|` (which holds for
engine-produced traces, where every backtrack is a recorded valid
move). -/
theorem C8_backtrack_rate (m : Gym.ReasoningMetrics) :
    (m.solver_distance_trace ≠ [] →
      m.backtrack_rate = (m.backtrack_count : ℚ)
        / (m.solver_distance_trace.length : ℚ)) ∧
    (m.solver_distance_trace = [] → m.backtrack_rate = 0) ∧
    0 ≤ m.backtrack_rate ∧
    (m.backtrack_count ≤ m.solver_distance_trace.length →
      m.backtrack_rate ≤ 1) := by
  refine ⟨?_, ?_, ?_, ?_⟩
  · intro hne
    rw [Gym.ReasoningMetrics.backtrack_rate,
      if_neg (by simpa [List.length_eq_zero] using hne)]
  · intro he
    rw [Gym.ReasoningMetrics.backtrack_rate, if_pos (by simp [he])]
  · rw [Gym.ReasoningMetrics.backtrack_rate]
    by_cases h0 : m.solver_distance_trace.length = 0
    · rw [if_pos h0]
    · rw [if_neg h0]
      exact div_nonneg (Nat.cast_nonneg _) (Nat.cast_nonneg _)
  · intro hle
    rw [Gym.ReasoningMetrics.backtrack_rate]
    by_cases h0 : m.solver_distance_trace.length = 0
    · rw [if_pos h0]; norm_num
    · rw [if_neg h0]
      rw [div_le_one (by exact_mod_cast Nat.pos_of_ne_zero h0)]
      exact_mod_cast hle

/-- C8 witness: the formula and the `≤ 1` bound of `C8_backtrack_rate`
at one backtrack over a two-entry trace. -/
theorem C8_witness :
    (Gym.ReasoningMetrics.backtrack_rate ⟨1, [4, 3], 0, [], 0, none⟩
      = ((1 : ℕ) : ℚ) / ((2 : ℕ) : ℚ)) ∧
    Gym.ReasoningMetrics.backtrack_rate ⟨1, [4, 3], 0, [], 0, none⟩ ≤ 1 :=
  ⟨(C8_backtrack_rate ⟨1, [4, 3], 0, [], 0, none⟩).1 (by decide),
    (C8_backtrack_rate ⟨1, [4, 3], 0, [], 0, none⟩).2.2.2 (by decide)⟩

/-- C9: for a solved episode with unknown `optimal_steps`, the
efficiency component of `score_episode` is the fallback
`max(0, 1 − (steps_taken − 1)/100)` (the code's extra inner
`min(1, ·)` does not change the value); with known
`optimal_steps ≥ 1` (pydantic-validated), success, and
`steps_taken > 0`, it is `min(1, optimal_steps / steps_taken)`. -/
theorem C9_efficiency_component (e : Gym.EpisodeResult) :
    (e.status = Gym.EpisodeStatus.solved → e.optimal_steps = none →
      Gym.efficiencyComponent e
        = max 0 (1 - ((e.steps_taken : ℚ) - 1) / 100)) ∧
    (∀ opt : ℕ, e.optimal_steps = some opt → 1 ≤ opt →
      e.status = Gym.EpisodeStatus.solved → 0 < e.steps_taken →
      Gym.efficiencyComponent e
        = min 1 ((opt : ℚ) / (e.steps_taken : ℚ))) := by
  constructor
  · intro _ hopt
    have hes : e.efficiency_score = 0 := by
      simp [Gym.EpisodeResult.efficiency_score, hopt]
    rw [Gym.efficiencyComponent, hes, if_neg (lt_irrefl 0),
      max_zero_one_sub_min]
  · intro opt hopt h1 hs hsteps
    have hes : e.efficiency_score = min 1 ((opt : ℚ) / (e.steps_taken : ℚ)) := by
      simp [Gym.EpisodeResult.efficiency_score, hopt, hs,
        Nat.pos_iff_ne_zero.mp hsteps]
    have hpos : (0 : ℚ) < min 1 ((opt : ℚ) / (e.steps_taken : ℚ)) := by
      apply lt_min one_pos
      apply div_pos
      · exact_mod_cast Nat.lt_of_lt_of_le Nat.zero_lt_one h1
      · exact_mod_cast hsteps
    rw [Gym.efficiencyComponent, hes, if_pos hpos]

/-- C9 witness: both branches of `C9_efficiency_component` at concrete
solved episodes (one with unknown and one with known `optimal_steps`). -/
theorem C9_witness :
    Gym.efficiencyComponent ⟨Gym.EpisodeStatus.solved, 10, 0, 0, none, none⟩
      = max 0 (1 - (((10 : ℕ) : ℚ) - 1) / 100) ∧
    Gym.efficiencyComponent ⟨Gym.EpisodeStatus.solved, 10, 0, 0, some 5, none⟩
      = min 1 (((5 : ℕ) : ℚ) / ((10 : ℕ) : ℚ)) :=
  ⟨(C9_efficiency_component
        ⟨Gym.EpisodeStatus.solved, 10, 0, 0, none, none⟩).1 rfl rfl,
    (C9_efficiency_component
        ⟨Gym.EpisodeStatus.solved, 10, 0, 0, some 5, none⟩).2 5 rfl
      (by decide) rfl (by decide)⟩

/-- Characterization of a successful `run_episode`: generation
succeeded, the loop finished normally on some final loop state, and the
result's fields are assembled from it (with the final solved
override). -/
theorem run_episode_ok {σ η : Type} (g : Arcade.Game σ η) (d : String)
    (seed : ℤ) (uh : Bool) (mm : ℕ) (t : ℕ → Bool) (r : Arcade.EpisodeResult)
    (h : Arcade.run_episode g d seed uh mm t = Except.ok r) :
    ∃ (s0 : σ) (st : Arcade.LoopState σ) (status : String),
      g.generate = Except.ok s0 ∧
      Arcade.runLoop g uh mm t (Arcade.loopFuel mm) 0 ⟨s0, 0, 0, 0⟩
        = Arcade.LoopOutcome.finished st status ∧
      r = ⟨g.name, d, seed,
            if g.isComplete st.s then "solved" else status,
            st.moves, st.invalid, st.hints⟩ := by
  rw [Arcade.run_episode] at h
  split at h
  · exact Except.noConfusion h
  · rename_i s0 hgen
    split at h
    · exact Except.noConfusion h
    · exact Except.noConfusion h
    · rename_i st status hrun
      injection h with h1
      exact ⟨s0, st, status, hgen, hrun, h1.symm⟩

/-- The `seed` field of an emitted result is the seed the episode was
run with. -/
theorem run_episode_seed {σ η : Type} (g : Arcade.Game σ η) (d : String)
    (seed : ℤ) (uh : Bool) (mm : ℕ) (t : ℕ → Bool) (r : Arcade.EpisodeResult)
    (h : Arcade.run_episode g d seed uh mm t = Except.ok r) :
    r.seed = seed := by
  obtain ⟨s0, st, status, -, -, hr⟩ :=
    run_episode_ok g d seed uh mm t r h
  rw [hr]

/-- C3 counterexample: the loop's timeout branch reads the wall clock,
which is not among the three excluded fields; the same inputs
`(game, difficulty, seed, use_hints, max_moves)` yield
`status = "solved", moves_made = 2` in a run that stays under the
30-second cap and `status = "timeout", moves_made = 0` in a run that is
past the cap at its first iteration. -/
theorem C3_counterexample :
    Arcade.run_episode Arcade.gTwoStep "easy" 0 true 10 Arcade.noTimeout
      = Except.ok ⟨"twostep", "easy", 0, "solved", 2, 0, 2⟩ ∧
    Arcade.run_episode Arcade.gTwoStep "easy" 0 true 10
        Arcade.immediateTimeout
      = Except.ok ⟨"twostep", "easy", 0, "timeout", 0, 0, 0⟩ ∧
    (⟨"twostep", "easy", 0, "solved", 2, 0, 2⟩ : Arcade.EpisodeResult)
      ≠ ⟨"twostep", "easy", 0, "timeout", 0, 0, 0⟩ :=
  ⟨rfl, rfl, by decide⟩

/-- C3 (amended): for fixed `(game, difficulty, seed, use_hints,
max_moves)` and a deterministic game, two runs of `run_episode` whose
iterations all stay under the 30-second wall-clock cap produce
identical results on every modelled field (`started_at`, `ended_at`,
`wall_time_ms` are outside the embedding): the timeout test is the only
wall-clock dependence of the loop. -/
theorem C3_determinism {σ η : Type} (g : Arcade.Game σ η) (d : String)
    (seed : ℤ) (uh : Bool) (mm : ℕ) (t1 t2 : ℕ → Bool)
    (h1 : ∀ n, t1 n = false) (h2 : ∀ n, t2 n = false) :
    Arcade.run_episode g d seed uh mm t1
      = Arcade.run_episode g d seed uh mm t2 := by
  rw [Arcade.run_episode, Arcade.run_episode]
  split
  · rfl
  · rw [Arcade.runLoop_oracle_eq g uh mm t1 t2 h1 h2 (Arcade.loopFuel mm) 0 0]

/-- C3 witness: `C3_determinism` applied to `gTwoStep` and two
always-under-budget timeout oracles. -/
theorem C3_witness :
    Arcade.run_episode Arcade.gTwoStep "easy" 0 true 10 Arcade.noTimeout
      = Arcade.run_episode Arcade.gTwoStep "easy" 0 true 10
          Arcade.noTimeoutB :=
  C3_determinism Arcade.gTwoStep "easy" 0 true 10 Arcade.noTimeout
    Arcade.noTimeoutB (fun _ => rfl) (fun _ => rfl)

/-- C4 counterexample: with `max_moves = 1` and a game whose hints are
always rejected, the loop keeps iterating (the guard checks only
`moves_made < max_moves`) until the consecutive-invalid break at 51, so
the emitted result has `moves_made + invalid_moves = 51 > max_moves`. -/
theorem C4_counterexample :
    Arcade.run_episode Arcade.gAllInvalid "easy" 1 true 1 Arcade.noTimeout
      = Except.ok ⟨"allinvalid", "easy", 1, "failed", 0, 51, 51⟩ ∧
    ¬ ((0 : ℕ) + 51 ≤ 1) :=
  ⟨rfl, by decide⟩

/-- C4 (amended): every emitted episode satisfies
`moves_made ≤ max_moves` (the loop guard) and `invalid_moves ≤ 51` (the
consecutive-invalid break fires at `invalid_moves > 50`), hence
`moves_made + invalid_moves ≤ max_moves + 51`; the code never compares
`moves_made + invalid_moves` against `max_moves`. -/
theorem C4_move_caps {σ η : Type} (g : Arcade.Game σ η) (d : String)
    (seed : ℤ) (uh : Bool) (mm : ℕ) (t : ℕ → Bool) (r : Arcade.EpisodeResult)
    (h : Arcade.run_episode g d seed uh mm t = Except.ok r) :
    r.moves_made ≤ mm ∧ r.invalid_moves ≤ 51
      ∧ r.moves_made + r.invalid_moves ≤ mm + 51 := by
  obtain ⟨s0, st, status, -, hrun, hr⟩ :=
    run_episode_ok g d seed uh mm t r h
  obtain ⟨hb1, hb2⟩ := Arcade.runLoop_bounds g uh mm t (Arcade.loopFuel mm) 0
    ⟨s0, 0, 0, 0⟩ st status (Nat.zero_le mm) (Nat.zero_le 50) hrun
  subst hr
  show st.moves ≤ mm ∧ st.invalid ≤ 51 ∧ st.moves + st.invalid ≤ mm + 51
  exact ⟨hb1, hb2, by omega⟩

/-- C4 witness: `C4_move_caps` at a concrete solved episode. -/
theorem C4_witness :
    (⟨"twostep", "easy", 0, "solved", 2, 0, 2⟩
        : Arcade.EpisodeResult).moves_made ≤ 10 ∧
    (⟨"twostep", "easy", 0, "solved", 2, 0, 2⟩
        : Arcade.EpisodeResult).invalid_moves ≤ 51 ∧
    (⟨"twostep", "easy", 0, "solved", 2, 0, 2⟩
          : Arcade.EpisodeResult).moves_made
        + (⟨"twostep", "easy", 0, "solved", 2, 0, 2⟩
          : Arcade.EpisodeResult).invalid_moves ≤ 10 + 51 :=
  C4_move_caps Arcade.gTwoStep "easy" 0 true 10 Arcade.noTimeout
    ⟨"twostep", "easy", 0, "solved", 2, 0, 2⟩ rfl

/-- C5 counterexample: a game whose `generate_puzzle` raises makes
`evaluate_game` propagate the exception to its caller (no
`EpisodeResult` with a Failed status is produced), and
`evaluate_all_games` silently drops the failing game's report while
evaluating the rest. -/
theorem C5_counterexample :
    Arcade.evaluate_game Arcade.gBadGen "easy" [1] true 10 Arcade.noTimeout
      = Except.error "generation failed" ∧
    Arcade.evaluate_all_games [Arcade.gBadGen, Arcade.gTwoStep] "easy" [1]
        true 10 Arcade.noTimeout
      = [("twostep", [⟨"twostep", "easy", 1, "solved", 2, 0, 2⟩])] :=
  ⟨rfl, rfl⟩

/-- C5 (amended): a generation failure propagates out of `run_episode`
(and hence out of `evaluate_game`) as an exception rather than being
reified into a Failed `EpisodeResult`; only `evaluate_all_games`
catches per-game exceptions, and it does so by dropping the failing
game's report entirely and continuing with the remaining games. -/
theorem C5_error_reification (σ η : Type) :
    (∀ (g : Arcade.Game σ η) (d : String) (seed : ℤ) (uh : Bool) (mm : ℕ)
        (t : ℕ → Bool) (e : String), g.generate = Except.error e →
      Arcade.run_episode g d seed uh mm t = Except.error e) ∧
    (∀ (games : List (Arcade.Game σ η)) (d : String) (seeds : List ℤ)
        (uh : Bool) (mm : ℕ) (t : ℕ → Bool),
      Arcade.evaluate_all_games games d seeds uh mm t
        = games.filterMap fun g =>
            match Arcade.evaluate_game g d seeds uh mm t with
            | Except.ok reps => some (g.name, reps)
            | Except.error _ => none) := by
  constructor
  · intro g d seed uh mm t e hgen
    rw [Arcade.run_episode, hgen]
  · intro games d seeds uh mm t
    induction games with
    | nil => rfl
    | cons g rest ih =>
      rw [Arcade.evaluate_all_games, List.filterMap_cons]
      cases heval : Arcade.evaluate_game g d seeds uh mm t with
      | ok reps => simp only [heval, ih]
      | error e => simp only [heval, ih]

/-- C5 witness: the generation-failure branch of `C5_error_reification`
at `gBadGen`. -/
theorem C5_witness :
    Arcade.run_episode Arcade.gBadGen "easy" 5 true 10 Arcade.noTimeout
      = Except.error "generation failed" :=
  (C5_error_reification ℕ Unit).1 Arcade.gBadGen "easy" 5 true 10
    Arcade.noTimeout "generation failed" rfl

/-- C6 counterexample: with `seeds=None` the seeds come from fresh
`random.randint(1, 2**31 - 1)` draws, not from `42 + i`: a run whose
two draws both return `7` (a legal `randint` output) evaluates seeds
`[7, 7]`, not `[42, 43]`. -/
theorem C6_counterexample :
    Arcade.evaluate_game_auto Arcade.gTwoStep "easy" 2 Arcade.rngConst7
        true 10 Arcade.noTimeout
      = Except.ok [⟨"twostep", "easy", 7, "solved", 2, 0, 2⟩,
          ⟨"twostep", "easy", 7, "solved", 2, 0, 2⟩] ∧
    (7 : ℤ) ≠ 42 ∧ (7 : ℤ) ≠ 43 :=
  ⟨rfl, by decide, by decide⟩

/-- C6 (amended): episode `i` of `evaluate_game` runs exactly the
`i`-th entry of the seed list; when no seed list is given, the list is
built from `episodes` successive `random.randint(1, 2**31 - 1)` draws
(so repeated runs without explicit seeds generally evaluate different
puzzle instances, not the fixed seeds `42 + i`). -/
theorem C6_seed_source (σ η : Type) :
    (∀ (g : Arcade.Game σ η) (d : String) (seeds : List ℤ) (uh : Bool)
        (mm : ℕ) (t : ℕ → Bool) (rs : List Arcade.EpisodeResult),
      Arcade.evaluate_game g d seeds uh mm t = Except.ok rs →
      rs.map Arcade.EpisodeResult.seed = seeds) ∧
    (∀ (g : Arcade.Game σ η) (d : String) (episodes : ℕ) (rng : ℕ → ℤ)
        (uh : Bool) (mm : ℕ) (t : ℕ → Bool) (rs : List Arcade.EpisodeResult),
      Arcade.evaluate_game_auto g d episodes rng uh mm t = Except.ok rs →
      rs.map Arcade.EpisodeResult.seed = (List.range episodes).map rng) := by
  have hmain : ∀ (g : Arcade.Game σ η) (d : String) (uh : Bool) (mm : ℕ)
      (t : ℕ → Bool) (seeds : List ℤ) (rs : List Arcade.EpisodeResult),
      Arcade.evaluate_game g d seeds uh mm t = Except.ok rs →
      rs.map Arcade.EpisodeResult.seed = seeds := by
    intro g d uh mm t seeds
    induction seeds with
    | nil =>
      intro rs h
      rw [Arcade.evaluate_game] at h
      injection h with h1
      rw [← h1]
      rfl
    | cons s rest ih =>
      intro rs h
      rw [Arcade.evaluate_game] at h
      split at h
      · exact Except.noConfusion h
      · rename_i r hrep
        split at h
        · exact Except.noConfusion h
        · rename_i rs2 hrest
          injection h with h1
          rw [← h1, List.map_cons,
            run_episode_seed g d s uh mm t r hrep, ih rs2 hrest]
  exact ⟨fun g d seeds uh mm t => hmain g d uh mm t seeds,
    fun g d episodes rng uh mm t => hmain g d uh mm t
      ((List.range episodes).map rng)⟩

/-- C6 witness: the seeds-from-draws branch of `C6_seed_source` at two
constant draws of `7`. -/
theorem C6_witness :
    ([⟨"twostep", "easy", 7, "solved", 2, 0, 2⟩,
        ⟨"twostep", "easy", 7, "solved", 2, 0, 2⟩]
      : List Arcade.EpisodeResult).map Arcade.EpisodeResult.seed
      = (List.range 2).map Arcade.rngConst7 :=
  (C6_seed_source ℕ Unit).2 Arcade.gTwoStep "easy" 2 Arcade.rngConst7
    true 10 Arcade.noTimeout
    [⟨"twostep", "easy", 7, "solved", 2, 0, 2⟩,
      ⟨"twostep", "easy", 7, "solved", 2, 0, 2⟩] rfl

/-- C10: every emitted episode satisfies
`hints_used = moves_made + invalid_moves` when `use_hints = True`
(each consumed hint is applied exactly once, counting as one valid or
one invalid move — exceptions of the caught kinds count as invalid);
with `use_hints = False` all three counters are `0`. -/
theorem C10_hint_accounting {σ η : Type} (g : Arcade.Game σ η) (d : String)
    (seed : ℤ) (uh : Bool) (mm : ℕ) (t : ℕ → Bool) (r : Arcade.EpisodeResult)
    (h : Arcade.run_episode g d seed uh mm t = Except.ok r) :
    (uh = true → r.hints_used = r.moves_made + r.invalid_moves) ∧
    (uh = false → r.moves_made = 0 ∧ r.invalid_moves = 0 ∧ r.hints_used = 0) := by
  obtain ⟨s0, st, status, -, hrun, hr⟩ :=
    run_episode_ok g d seed uh mm t r h
  subst hr
  constructor
  · intro _
    have hc : st.hints + (0 : ℕ) + (0 : ℕ) = (0 : ℕ) + st.moves + st.invalid :=
      Arcade.runLoop_counts g uh mm t (Arcade.loopFuel mm) 0
        ⟨s0, 0, 0, 0⟩ st status hrun
    show st.hints = st.moves + st.invalid
    omega
  · intro huh
    subst huh
    have hst := Arcade.runLoop_false g mm t (Arcade.loopFuel mm) 0
      ⟨s0, 0, 0, 0⟩ st status hrun
    subst hst
    exact ⟨rfl, rfl, rfl⟩

/-- C10 witness: `C10_hint_accounting` at a concrete hint-driven solved
episode (`hints_used = 2 = 2 + 0`). -/
theorem C10_witness :
    (true = true →
      (⟨"twostep", "easy", 0, "solved", 2, 0, 2⟩
          : Arcade.EpisodeResult).hints_used
        = (⟨"twostep", "easy", 0, "solved", 2, 0, 2⟩
            : Arcade.EpisodeResult).moves_made
          + (⟨"twostep", "easy", 0, "solved", 2, 0, 2⟩
            : Arcade.EpisodeResult).invalid_moves) ∧
    (true = false →
      (⟨"twostep", "easy", 0, "solved", 2, 0, 2⟩
          : Arcade.EpisodeResult).moves_made = 0 ∧
      (⟨"twostep", "easy", 0, "solved", 2, 0, 2⟩
          : Arcade.EpisodeResult).invalid_moves = 0 ∧
      (⟨"twostep", "easy", 0, "solved", 2, 0, 2⟩
          : Arcade.EpisodeResult).hints_used = 0) :=
  C10_hint_accounting Arcade.gTwoStep "easy" 0 true 10 Arcade.noTimeout
    ⟨"twostep", "easy", 0, "solved", 2, 0, 2⟩ rfl
